import Mathlib

/-!
Verification development for the ChainOS request gateway core.

This file embeds, in Lean, the three core pieces of the repository:
the unary RPC interceptor of the endorser service (file part_000,
package endorser), its outbound connection cache (getClient), and the
lifecycle orchestrator (cmd/xuperos/cmd/startup.go, StartupXuperos).
Pure Go functions become Lean functions; the concurrent connection
cache and the shutdown coordinator become explicit labelled transition
systems whose schedules are lists of events.
-/

namespace ChainOS

/-! ## Wire enumeration and the status descriptor

pb.XChainErrorEnum and ecom.Error live outside the provided sources.
We keep only the constructors and fields the core touches. -/

/-- Wire status enumeration (pb.XChainErrorEnum). Only a few representative
codes are carried; SUCCESS and UNKNOW_ERROR are the two sentinels the
interceptor names explicitly (the source spells UNKNOW_ERROR). -/
inductive XChainErrorEnum where
  | SUCCESS
  | UNKNOW_ERROR
  | CONNECT_REFUSE
  | NOT_ENOUGH_UTXO_ERROR
  | INTERNAL
  deriving DecidableEq, Repr

/-- Internal status descriptor (ecom.Error from xupercore): status, code
and message, of which convertErr reads only the code. -/
structure StdError where
  Status : Nat
  Code : Nat
  Msg : String
  deriving DecidableEq, Repr

/-- Modelled from the spec: ecom.ErrSuccess, the SUCCESS sentinel of the
engine error taxonomy (xupercore kernel, not under the provided sources).
Its code is the one the registered mapping sends to the SUCCESS wire code. -/
def ErrSuccess : StdError := { Status := 200, Code := 0, Msg := "success" }

/-- Modelled from the spec: ecom.ErrUnknown, the descriptor ecom.CastError
falls back to for an error value that is not a standard engine error. Its
code has no registered mapping, so it converts to UNKNOW_ERROR. -/
def ErrUnknown : StdError := { Status := 500, Code := 50000, Msg := "unknown error" }

/-- A Go error value as the handler may return it: either a standard
engine error (ecom.Error) or any other error value. -/
inductive GoErr where
  | std (e : StdError)
  | plain (msg : String)
  deriving DecidableEq, Repr

/-- Modelled from the spec: ecom.CastError (xupercore kernel, not under the
provided sources): a standard engine error is returned as is, any other
error kind becomes the unknown-error descriptor. -/
def CastError : GoErr → StdError
  | .std e => e
  | .plain _ => ErrUnknown

/-- Modelled from the spec: acom.StdErrToXchainErrMap (service/adapter/common,
not under the provided sources), the registry from internal status codes to
designated wire codes. The success sentinel code is registered and maps to
SUCCESS; a couple of representative error codes stand for the registered
error kinds; everything else is unregistered. -/
def StdErrToXchainErrMap : Nat → Option XChainErrorEnum
  | 0 => some .SUCCESS
  | 50201 => some .CONNECT_REFUSE
  | 50301 => some .NOT_ENOUGH_UTXO_ERROR
  | _ => none

/-- RpcServ.convertErr: nil descriptor converts to UNKNOW_ERROR; a registered
code converts to its designated wire code; an unregistered code converts to
UNKNOW_ERROR. -/
def convertErr : Option StdError → XChainErrorEnum
  | none => .UNKNOW_ERROR
  | some stdErr =>
    match StdErrToXchainErrMap stdErr.Code with
    | some errCode => errCode
    | none => .UNKNOW_ERROR

/-! ## Envelope (pb.Header) and messages

Every request and response type passing through the interceptor exposes a
mutable Header field (the envelope convention); we model a message as just
that optional field, a nil pointer being none. -/

/-- The message envelope pb.Header: correlation id (Logid), origin identity
(FromNode) and status (Error). -/
structure Header where
  Logid : String
  FromNode : String
  Error : XChainErrorEnum
  deriving DecidableEq, Repr

/-- A request message: its optional envelope (nil-able Header pointer). -/
structure Req where
  header : Option Header
  deriving DecidableEq, Repr

/-- A response message: its optional envelope (nil-able Header pointer). -/
structure Resp where
  header : Option Header
  deriving DecidableEq, Repr

/-- The nil-safe protobuf getter GetLogid: on a nil Header it yields the
empty string. -/
def getLogid : Option Header → String
  | none => ""
  | some h => h.Logid

/-- Modelled from the spec: utils.GenLogId (xupercore lib/utils, not under
the provided sources) generates a fresh, non-empty correlation id; we index
generation by a seed. -/
def GenLogId (seed : Nat) : String := String.mk ('L' :: Nat.toDigits 10 seed)

/-- RpcServ.defReqHeader: the synthesized request envelope, with a fresh
correlation id, empty origin and the UNKNOW_ERROR placeholder status. -/
def defReqHeader (seed : Nat) : Header :=
  { Logid := GenLogId seed, FromNode := "", Error := .UNKNOW_ERROR }

/-! ## Client address derivation -/

/-- Go strings.Split specialised to a one-character separator, over the
character list of the string. It always returns at least one fragment. -/
def goSplit (sep : Char) : List Char → List (List Char)
  | [] => [[]]
  | c :: rest =>
    if c = sep then [] :: goSplit sep rest
    else
      match goSplit sep rest with
      | [] => [[c]]
      | g :: gs => (c :: g) :: gs

/-- The transport peer metadata of a call: none when peer.FromContext fails,
some none when the peer has a nil address, some (some s) when the address
renders as the string s. -/
abbrev PeerInfo := Option (Option String)

/-- RpcServ.getClietIP: fail when the peer metadata is absent or its address
is nil, else return the first fragment of the address split on the colon. -/
def getClietIP : PeerInfo → Except String String
  | none => .error "create peer form context failed"
  | some none => .error "get client_ip failed because peer.Addr is nil"
  | some (some addr) => .ok (String.mk ((goSplit ':' addr.data).headD []))

/-! ## The unary interceptor -/

/-- What the handler invocation does on this call: it returns a response
value (a nil-able pointer) together with a nil-able error, or it raises an
uncaught fault. -/
inductive HandlerOutcome where
  | ret (resp : Option Resp) (err : Option GoErr)
  | panics
  deriving DecidableEq, Repr

/-- The observable outcome of one interceptor invocation: the returned
response and transport-level error (the named return values respRes and
err), the request envelope after the in-place mutations, whether the
deferred recover contained an uncaught fault (in Go the function then still
returns its current named values, so the serving task survives), and the
client address the request context recorded (none when context creation
failed). -/
structure InterceptResult where
  resp : Option Resp
  err : Option GoErr
  reqHeader : Option Header
  contained : Bool
  clientIp : Option String
  deriving DecidableEq, Repr

/-- RpcServ.UnaryInterceptor, one inbound call. Faithful to the source flow:
envelope injection (defReqHeader when the request header is nil, then the
correlation id alone when it is empty); context creation whose error is
discarded, so on failure the nil request context makes the very next method
call fault, which the deferred recover contains, returning nil and nil;
handler invocation, with faults likewise contained; status mapping through
convertErr; envelope finalization by reflection, which faults on a nil
response (contained) and writes the header only when the field is nil. -/
def UnaryInterceptor (seed : Nat) (hostName : String) (pr : PeerInfo)
    (req : Req) (handler : HandlerOutcome) : InterceptResult :=
  -- set request header
  let req1 : Req := if req.header = none then { header := some (defReqHeader seed) } else req
  let req2 : Req :=
    if getLogid req1.header = "" then
      { header := (req1.header.map fun h => { h with Logid := GenLogId seed }) }
    else req1
  -- set request context: the error of createReqCtx is dropped; when it
  -- fails, reqCtx is nil and reqCtx.GetClientIp() faults at the access log
  match getClietIP pr with
  | .error _ =>
    { resp := none, err := none, reqHeader := req2.header,
      contained := true, clientIp := none }
  | .ok clientIp =>
    -- handle request
    match handler with
    | .panics =>
      { resp := none, err := none, reqHeader := req2.header,
        contained := true, clientIp := some clientIp }
    | .ret r e =>
      let stdErr : StdError := match e with
        | none => ErrSuccess
        | some goe => CastError goe
      let respHeader : Header :=
        { Logid := getLogid req2.header, FromNode := hostName,
          Error := convertErr (some stdErr) }
      match r with
      | none =>
        -- reflect.ValueOf(respRes).Elem() faults on a nil response; contained
        { resp := none, err := none, reqHeader := req2.header,
          contained := true, clientIp := some clientIp }
      | some r0 =>
        let r1 : Resp := if r0.header = none then { header := some respHeader } else r0
        { resp := some r1, err := e, reqHeader := req2.header,
          contained := false, clientIp := some clientIp }

/-! ## Outbound connection cache

RpcServ.getClient, twice: once as the sequential semantics of a single
uncontended call (for the empty-host guard), and once as a labelled
transition system over the check-lock-check protocol for one fixed host,
interleaving any number of concurrent tasks (for the at-most-one-dial
guarantee). -/

/-- RpcServ.getClient as one sequential call: the cache is the set of hosts
holding a memoized client. Returns the call result, the cache afterwards,
and how many connection-establishment (dial) attempts the call performed. -/
def getClient (cache : List String) (host : String) (dialOk : Bool) :
    Except String Unit × List String × Nat :=
  if host = "" then (.error "empty host", cache, 0)
  else if host ∈ cache then (.ok (), cache, 0)
  else if dialOk then (.ok (), host :: cache, 1)
  else (.error "dial failed", cache, 1)

/-- Program counter of one task running getClient for the fixed host:
before the fast-path cache check; past it and competing for the mutex;
holding the mutex about to re-check and possibly dial; returned with a
client; returned with a dial error. -/
inductive TaskPC where
  | start
  | waiting
  | locked
  | doneOk
  | doneErr
  deriving DecidableEq, Repr

/-- Shared state of the check-lock-check protocol for one host: the program
counters of the tasks, the mutex owner, whether a client is memoized in
clientCache for this host, and how many connections have been successfully
established (dials that returned a connection). -/
structure CacheState where
  pcs : List TaskPC
  lock : Option Nat
  cached : Bool
  est : Nat
  deriving DecidableEq, Repr

/-- Initial protocol state: n tasks at the fast-path check, mutex free,
nothing cached, no connection established. -/
def cacheInit (n : Nat) : CacheState :=
  { pcs := List.replicate n .start, lock := none, cached := false, est := 0 }

/-- One atomic step of task i, with dialOk the outcome grpc.Dial would
have if this step dials. start: the lock-free clientCache.Load, finishing
on a hit; waiting: acquiring the free mutex; locked: the re-check under
the mutex, then dial, and on success clientCache.Store before unlocking,
on failure unlock with nothing cached. Steps of finished tasks, of tasks
blocked on a held mutex, and of out-of-range ids change nothing. -/
def cacheStep (s : CacheState) (i : Nat) (dialOk : Bool) : CacheState :=
  match s.pcs.get? i with
  | none => s
  | some .start =>
    if s.cached then { s with pcs := s.pcs.set i .doneOk }
    else { s with pcs := s.pcs.set i .waiting }
  | some .waiting =>
    if s.lock = none then { s with lock := some i, pcs := s.pcs.set i .locked }
    else s
  | some .locked =>
    if s.lock = some i then
      if s.cached then { s with pcs := s.pcs.set i .doneOk, lock := none }
      else if dialOk then
        { pcs := s.pcs.set i .doneOk, lock := none, cached := true, est := s.est + 1 }
      else { s with pcs := s.pcs.set i .doneErr, lock := none }
    else s
  | some .doneOk => s
  | some .doneErr => s

/-- Run a schedule: a list of (task id, dial outcome) choices, applied in
order; this ranges over every interleaving of the tasks. -/
def cacheRun (sched : List (Nat × Bool)) (s : CacheState) : CacheState :=
  sched.foldl (fun t e => cacheStep t e.1 e.2) s

/-! ## Lifecycle orchestrator

StartupXuperos (cmd/xuperos/cmd/startup.go): runEngine sends on engChan
when engine.Start returns, runServ sends on servChan when servMG.Run
returns, signals arrive on sigChan, and the coordinating goroutine
selects over engChan, rpcChan and sigChan. rpcChan is the channel the
select actually reads in the source; nothing in the source sends on it.
wgCount is the two-count WaitGroup StartupXuperos waits on before
returning. -/

/-- Orchestrator state: pending tokens on the four channels, which
subsystems have completed (their start routine returned, each firing its
completion send once), the WaitGroup counter, and how many exit requests
each subsystem has received. -/
structure OrchState where
  engChan : Bool
  servChan : Bool
  rpcChan : Bool
  sigChan : Bool
  engCompleted : Bool
  servCompleted : Bool
  wgCount : Nat
  servExitReqs : Nat
  engExitReqs : Nat
  deriving DecidableEq, Repr

/-- Events: a subsystem completing (its goroutine sending its token), a
termination signal arriving, and the coordinating goroutine receiving on
one of the three channels its select covers. -/
inductive OrchEvent where
  | engineDone
  | serviceDone
  | signalArrive
  | selectEng
  | selectRpc
  | selectSig
  deriving DecidableEq, Repr

/-- State after wg.Add(2) and launching both subsystems. -/
def orchInit : OrchState :=
  { engChan := false, servChan := false, rpcChan := false, sigChan := false,
    engCompleted := false, servCompleted := false,
    wgCount := 2, servExitReqs := 0, engExitReqs := 0 }

/-- One event. Completion events fire at most once per subsystem. The
three select cases mirror the source: engChan receipt requests service
exit and calls wg.Done; rpcChan receipt requests engine exit and calls
wg.Done; sigChan receipt requests exit on both. A receive on an empty
channel is not enabled and changes nothing. No case receives servChan,
and no event sends on rpcChan, exactly as in the source. -/
def orchStep (s : OrchState) : OrchEvent → OrchState
  | .engineDone =>
    if s.engCompleted then s else { s with engCompleted := true, engChan := true }
  | .serviceDone =>
    if s.servCompleted then s else { s with servCompleted := true, servChan := true }
  | .signalArrive => { s with sigChan := true }
  | .selectEng =>
    if s.engChan then
      { s with engChan := false, servExitReqs := s.servExitReqs + 1,
               wgCount := s.wgCount - 1 }
    else s
  | .selectRpc =>
    if s.rpcChan then
      { s with rpcChan := false, engExitReqs := s.engExitReqs + 1,
               wgCount := s.wgCount - 1 }
    else s
  | .selectSig =>
    if s.sigChan then
      { s with sigChan := false, servExitReqs := s.servExitReqs + 1,
               engExitReqs := s.engExitReqs + 1 }
    else s

/-- Run a trace of events from the post-launch state. -/
def orchRun (tr : List OrchEvent) : OrchState :=
  tr.foldl orchStep orchInit

/-! ## Helper lemmas -/

/-- goSplit always produces at least one fragment. -/
theorem goSplit_ne_nil (sep : Char) (l : List Char) : goSplit sep l ≠ [] := by
  cases l with
  | nil => simp [goSplit]
  | cons c rest =>
    simp only [goSplit]
    split
    · simp
    · rcases h : goSplit sep rest with _ | ⟨g, gs⟩ <;> simp

/-- The first fragment of goSplit is the prefix strictly before the first
occurrence of the separator. -/
theorem goSplit_headD (sep : Char) (l : List Char) :
    (goSplit sep l).headD [] = l.takeWhile (fun c => c != sep) := by
  induction l with
  | nil => simp [goSplit]
  | cons c rest ih =>
    simp only [goSplit]
    by_cases hc : c = sep
    · simp [hc, List.takeWhile]
    · rcases h : goSplit sep rest with _ | ⟨g, gs⟩
      · exact absurd h (goSplit_ne_nil sep rest)
      · rw [h] at ih
        simp only [hc, if_neg hc, List.headD_cons, List.takeWhile] at ih ⊢
        have hb : (c != sep) = true := by simp [hc]
        rw [hb, ih]
        simp

/-- Generated correlation ids are never empty. -/
theorem GenLogId_ne_empty (seed : Nat) : GenLogId seed ≠ "" := by
  unfold GenLogId
  intro h
  have hdata := congrArg String.data h
  simp at hdata

/-- The request header the interceptor leaves behind does not depend on
peer metadata or handler outcome: it is the header after the two in-place
envelope mutations. -/
theorem UnaryInterceptor_reqHeader (seed : Nat) (hostName : String) (pr : PeerInfo)
    (req : Req) (handler : HandlerOutcome) :
    (UnaryInterceptor seed hostName pr req handler).reqHeader =
      (let h1 : Option Header :=
        if req.header = none then some (defReqHeader seed) else req.header
       if getLogid h1 = "" then h1.map (fun h => { h with Logid := GenLogId seed })
       else h1) := by
  unfold UnaryInterceptor
  rcases hip : getClietIP pr with e | ip
  · rcases hreq : req.header with _ | h <;> simp [hip, hreq] <;> split <;> simp [hreq]
  · rcases handler with ⟨(_ | r0), er⟩ | _ <;>
      rcases hreq : req.header with _ | h <;>
      simp [hip, hreq] <;> split <;> simp [hreq]

/-! ## Claim theorems: interceptor -/

/-- C1: when the handler invocation raises an uncaught fault on an inbound
call with valid peer metadata, the deferred recover contains it (the
interceptor returns normally, so the serving task survives), but the
returned response is nil with a nil error: no response envelope exists at
all, so in particular no INTERNAL envelope status is produced. This
evaluates the code at the failing input of the claim. -/
theorem contained_fault_returns_nil_response :
    (UnaryInterceptor 0 "node" (some (some "1.2.3.4:5678"))
        { header := some { Logid := "id1", FromNode := "peer", Error := .SUCCESS } }
        .panics).contained = true ∧
    (UnaryInterceptor 0 "node" (some (some "1.2.3.4:5678"))
        { header := some { Logid := "id1", FromNode := "peer", Error := .SUCCESS } }
        .panics).resp = none ∧
    (UnaryInterceptor 0 "node" (some (some "1.2.3.4:5678"))
        { header := some { Logid := "id1", FromNode := "peer", Error := .SUCCESS } }
        .panics).err = none := by
  refine ⟨rfl, rfl, rfl⟩

/-- C4: whenever the interceptor reaches envelope finalization (valid peer,
handler returned a non-nil response whose envelope field is nil), the status
attached to the response envelope is exactly: SUCCESS for a nil error, the
designated wire code for an error whose cast descriptor has a registered
mapping, and UNKNOW_ERROR for any other error. -/
theorem envelope_status_mapping (seed : Nat) (hostName addr : String)
    (req : Req) (r0 : Resp) (e : Option GoErr) (hr : r0.header = none) :
    ∃ hd : Header,
      (UnaryInterceptor seed hostName (some (some addr)) req
          (.ret (some r0) e)).resp = some { header := some hd } ∧
      hd.Error = (match e with
        | none => XChainErrorEnum.SUCCESS
        | some goe =>
          match StdErrToXchainErrMap (CastError goe).Code with
          | some w => w
          | none => XChainErrorEnum.UNKNOW_ERROR) := by
  unfold UnaryInterceptor
  simp only [getClietIP, hr, if_pos]
  refine ⟨_, rfl, ?_⟩
  cases e with
  | none => rfl
  | some goe => rfl

/-- C4 witness: a registered error code is mapped to its designated wire
code on a concrete call. -/
theorem envelope_status_mapping_witness :
    (({ header := none } : Resp).header = none) ∧
    (∃ hd : Header,
      (UnaryInterceptor 0 "node" (some (some "9.9.9.9:80"))
          { header := some { Logid := "id", FromNode := "c", Error := .SUCCESS } }
          (.ret (some { header := none })
            (some (.std { Status := 400, Code := 50201, Msg := "refused" })))).resp
        = some { header := some hd } ∧
      hd.Error = XChainErrorEnum.CONNECT_REFUSE) :=
  ⟨rfl, envelope_status_mapping 0 "node" "9.9.9.9:80"
    { header := some { Logid := "id", FromNode := "c", Error := .SUCCESS } }
    { header := none }
    (some (.std { Status := 400, Code := 50201, Msg := "refused" })) rfl⟩

/-- C5: on an inbound call whose peer metadata is absent, and likewise on
one whose peer address is nil, the context-creation failure is not
surfaced: the interceptor returns a nil error and a nil response, with the
fault of dereferencing the nil request context contained by the recover,
instead of failing the call with the context-creation error. This evaluates
the code at the failing input of the claim. -/
theorem context_creation_failure_not_surfaced :
    ((UnaryInterceptor 0 "node" none
        { header := some { Logid := "id1", FromNode := "peer", Error := .SUCCESS } }
        (.ret (some { header := none }) none)).err = none ∧
     (UnaryInterceptor 0 "node" none
        { header := some { Logid := "id1", FromNode := "peer", Error := .SUCCESS } }
        (.ret (some { header := none }) none)).resp = none ∧
     (UnaryInterceptor 0 "node" none
        { header := some { Logid := "id1", FromNode := "peer", Error := .SUCCESS } }
        (.ret (some { header := none }) none)).contained = true) ∧
    ((UnaryInterceptor 0 "node" (some none)
        { header := some { Logid := "id1", FromNode := "peer", Error := .SUCCESS } }
        (.ret (some { header := none }) none)).err = none ∧
     (UnaryInterceptor 0 "node" (some none)
        { header := some { Logid := "id1", FromNode := "peer", Error := .SUCCESS } }
        (.ret (some { header := none }) none)).resp = none ∧
     (UnaryInterceptor 0 "node" (some none)
        { header := some { Logid := "id1", FromNode := "peer", Error := .SUCCESS } }
        (.ret (some { header := none }) none)).contained = true) := by
  exact ⟨⟨rfl, rfl, rfl⟩, ⟨rfl, rfl, rfl⟩⟩

/-- C6: a request arriving without an envelope leaves the interceptor with
a synthesized one: a freshly generated, non-empty correlation id, empty
origin and the UNKNOW_ERROR placeholder status, for every peer situation
and handler outcome. -/
theorem missing_envelope_synthesized (seed : Nat) (hostName : String)
    (pr : PeerInfo) (handler : HandlerOutcome) :
    (UnaryInterceptor seed hostName pr { header := none } handler).reqHeader =
      some { Logid := GenLogId seed, FromNode := "", Error := .UNKNOW_ERROR } ∧
    GenLogId seed ≠ "" := by
  refine ⟨?_, GenLogId_ne_empty seed⟩
  rw [UnaryInterceptor_reqHeader]
  simp [getLogid, defReqHeader, GenLogId_ne_empty seed]

/-- C8: a request arriving with an envelope whose correlation id is empty
leaves the interceptor with only that id filled in: origin and status are
the ones it arrived with, for every peer situation and handler outcome. -/
theorem empty_logid_filled_in_place (seed : Nat) (hostName : String)
    (pr : PeerInfo) (handler : HandlerOutcome) (h : Header) (hlog : h.Logid = "") :
    (UnaryInterceptor seed hostName pr { header := some h } handler).reqHeader =
      some { Logid := GenLogId seed, FromNode := h.FromNode, Error := h.Error } := by
  rw [UnaryInterceptor_reqHeader]
  simp [getLogid, hlog]

/-- C8 witness: a concrete envelope with empty correlation id has only the
id replaced. -/
theorem empty_logid_filled_in_place_witness :
    (({ Logid := "", FromNode := "origin", Error := .CONNECT_REFUSE } : Header).Logid = "") ∧
    (UnaryInterceptor 7 "n" none
        { header := some { Logid := "", FromNode := "origin", Error := .CONNECT_REFUSE } }
        .panics).reqHeader =
      some { Logid := GenLogId 7, FromNode := "origin", Error := .CONNECT_REFUSE } :=
  ⟨rfl, empty_logid_filled_in_place 7 "n" none .panics
    { Logid := "", FromNode := "origin", Error := .CONNECT_REFUSE } rfl⟩

/-- C10: with peer metadata present and a non-nil address, the derived
client address, and the one the request context records, is exactly the
portion of the address string strictly before its first colon; on a
concrete IPv6-style address the recorded fragment stops at the first colon
inside the host. -/
theorem client_ip_before_first_colon (seed : Nat) (hostName addr : String)
    (req : Req) (handler : HandlerOutcome) :
    getClietIP (some (some addr)) =
      .ok (String.mk (addr.data.takeWhile (fun c => c != ':'))) ∧
    (UnaryInterceptor seed hostName (some (some addr)) req handler).clientIp =
      some (String.mk (addr.data.takeWhile (fun c => c != ':'))) ∧
    getClietIP (some (some "[2001:db8::1]:8080")) = .ok "[2001" := by
  have hip : getClietIP (some (some addr)) =
      .ok (String.mk (addr.data.takeWhile (fun c => c != ':'))) := by
    simp only [getClietIP]
    rw [goSplit_headD]
  refine ⟨hip, ?_, by rfl⟩
  unfold UnaryInterceptor
  rw [hip]
  rcases handler with ⟨(_ | r0), er⟩ | _ <;> simp

/-! ## Claim theorems: connection cache, sequential -/

/-- C9: a call of getClient with the empty host returns the empty-host
error, leaves the cache untouched and performs zero dial attempts,
whatever the cache and whatever a dial would have done. -/
theorem empty_host_no_dial (cache : List String) (dialOk : Bool) :
    getClient cache "" dialOk = (.error "empty host", cache, 0) := by
  simp [getClient]

/-! ## Claim theorems: lifecycle orchestrator -/

/-- Invariant of the shutdown coordinator: rpcChan never holds a token (the
source has no send on it), the engChan token is produced at most once, and
the WaitGroup counter therefore never drops below 1. -/
def OrchInv (s : OrchState) : Prop :=
  s.rpcChan = false ∧
  ((s.engCompleted = false ∧ s.engChan = false ∧ s.wgCount = 2) ∨
   (s.engCompleted = true ∧ s.engChan = true ∧ s.wgCount = 2) ∨
   (s.engCompleted = true ∧ s.engChan = false ∧ s.wgCount = 1))

theorem orchInv_init : OrchInv orchInit := by
  refine ⟨rfl, Or.inl ⟨rfl, rfl, rfl⟩⟩

theorem orchInv_step (s : OrchState) (e : OrchEvent) (hs : OrchInv s) :
    OrchInv (orchStep s e) := by
  obtain ⟨h1, h2⟩ := hs
  cases e <;> simp only [orchStep] <;> (try split) <;>
    rcases h2 with ⟨hc, hch, hw⟩ | ⟨hc, hch, hw⟩ | ⟨hc, hch, hw⟩ <;>
    simp_all [OrchInv]

theorem orchInv_fold (tr : List OrchEvent) (s : OrchState) (hs : OrchInv s) :
    OrchInv (tr.foldl orchStep s) := by
  induction tr generalizing s with
  | nil => exact hs
  | cons e tr ih => exact ih _ (orchInv_step s e hs)

/-- C3: in every trace of the shutdown coordinator, the rpcChan select case
never fires (no token ever appears on it) and the two-count WaitGroup never
reaches zero, so StartupXuperos never returns, even in traces where both
subsystems have completed; the second count can only be released by the
rpcChan case, which nothing feeds, while the service completion token sits
unread on servChan. -/
theorem startup_barrier_never_opens (tr : List OrchEvent) :
    (orchRun tr).rpcChan = false ∧ 1 ≤ (orchRun tr).wgCount := by
  have h := orchInv_fold tr orchInit orchInv_init
  obtain ⟨h1, h2⟩ := h
  simp only [orchRun]
  refine ⟨h1, ?_⟩
  rcases h2 with ⟨_, _, hw⟩ | ⟨_, _, hw⟩ | ⟨_, _, hw⟩ <;> omega

/-- Invariant for signal-free traces: without a termination signal no token
appears on sigChan or rpcChan, and the engine never receives an exit
request, because the only select cases that request engine exit read those
two channels. -/
def SigFreeInv (s : OrchState) : Prop :=
  s.sigChan = false ∧ s.rpcChan = false ∧ s.engExitReqs = 0

theorem sigFreeInv_step (s : OrchState) (e : OrchEvent)
    (he : e ≠ OrchEvent.signalArrive) (hs : SigFreeInv s) :
    SigFreeInv (orchStep s e) := by
  obtain ⟨h1, h2, h3⟩ := hs
  cases e <;> simp only [orchStep, SigFreeInv] <;> (try split) <;> simp_all

theorem sigFreeInv_fold (tr : List OrchEvent) (htr : OrchEvent.signalArrive ∉ tr)
    (s : OrchState) (hs : SigFreeInv s) : SigFreeInv (tr.foldl orchStep s) := by
  induction tr generalizing s with
  | nil => exact hs
  | cons e tr ih =>
    rw [List.mem_cons] at htr
    push_neg at htr
    exact ih (fun hmem => htr.2 hmem) _ (sigFreeInv_step s e (fun hh => htr.1 hh.symm) hs)

/-- C2: in every trace without an external termination signal, however the
service subsystem completes, the engine never receives an exit request: the
coordinator requests engine exit only on receipt from rpcChan or sigChan,
the service completion is sent on servChan, which no select case reads,
and nothing sends on rpcChan. The symmetric engine-completed transition
does request service exit, but the claimed service-completed transition
does not exist in the code. -/
theorem service_completion_never_requests_engine_exit (tr : List OrchEvent)
    (htr : OrchEvent.signalArrive ∉ tr) :
    (orchRun tr).engExitReqs = 0 := by
  have h := sigFreeInv_fold tr htr orchInit ⟨rfl, rfl, rfl⟩
  exact h.2.2

/-- C2 witness: on the concrete trace where the service completes and the
coordinator then attempts every select case, the service has completed yet
the engine exit request count is still zero. -/
theorem service_completion_never_requests_engine_exit_witness :
    OrchEvent.signalArrive ∉
      [OrchEvent.serviceDone, OrchEvent.selectEng, OrchEvent.selectRpc,
       OrchEvent.selectSig] ∧
    (orchRun [OrchEvent.serviceDone, OrchEvent.selectEng, OrchEvent.selectRpc,
       OrchEvent.selectSig]).servCompleted = true ∧
    (orchRun [OrchEvent.serviceDone, OrchEvent.selectEng, OrchEvent.selectRpc,
       OrchEvent.selectSig]).engExitReqs = 0 :=
  ⟨by decide, by decide,
   service_completion_never_requests_engine_exit
     [OrchEvent.serviceDone, OrchEvent.selectEng, OrchEvent.selectRpc,
      OrchEvent.selectSig] (by decide)⟩

/-! ## Claim theorems: connection cache, concurrent -/

/-- Invariant of the check-lock-check protocol: the number of tasks is
stable, a client is memoized exactly when one connection has been
established, and a task can only have finished successfully once a client
is memoized. -/
def CacheInv (n : Nat) (s : CacheState) : Prop :=
  s.pcs.length = n ∧
  ((s.cached = false ∧ s.est = 0) ∨ (s.cached = true ∧ s.est = 1)) ∧
  (TaskPC.doneOk ∈ s.pcs → s.cached = true)

theorem cacheInv_init (n : Nat) : CacheInv n (cacheInit n) := by
  refine ⟨by simp [cacheInit], Or.inl ⟨rfl, rfl⟩, ?_⟩
  intro h
  simp [cacheInit, List.mem_replicate] at h

theorem cacheInv_step (n : Nat) (s : CacheState) (i : Nat) (b : Bool)
    (hs : CacheInv n s) : CacheInv n (cacheStep s i b) := by
  obtain ⟨hlen, hce, hdone⟩ := hs
  unfold cacheStep
  rcases hget : s.pcs.get? i with _ | pc
  · exact ⟨hlen, hce, hdone⟩
  · cases pc <;> simp only
    case start =>
      split
      · refine ⟨by simpa using hlen, hce, fun _ => by assumption⟩
      · refine ⟨by simpa using hlen, hce, fun hmem => ?_⟩
        rcases List.mem_or_eq_of_mem_set hmem with hmem' | heq
        · exact hdone hmem'
        · exact absurd heq (by simp)
    case waiting =>
      split
      · refine ⟨by simpa using hlen, hce, fun hmem => ?_⟩
        rcases List.mem_or_eq_of_mem_set hmem with hmem' | heq
        · exact hdone hmem'
        · exact absurd heq (by simp)
      · exact ⟨hlen, hce, hdone⟩
    case locked =>
      split
      · split
        · refine ⟨by simpa using hlen, hce, fun _ => by assumption⟩
        · split
          · rcases hce with ⟨hc, he⟩ | ⟨hc, he⟩
            · exact ⟨by simpa using hlen, Or.inr ⟨rfl, by simp [he]⟩, fun _ => rfl⟩
            · simp_all
          · refine ⟨by simpa using hlen, hce, fun hmem => ?_⟩
            rcases List.mem_or_eq_of_mem_set hmem with hmem' | heq
            · exact hdone hmem'
            · exact absurd heq (by simp)
      · exact ⟨hlen, hce, hdone⟩
    case doneOk => exact ⟨hlen, hce, hdone⟩
    case doneErr => exact ⟨hlen, hce, hdone⟩

theorem cacheInv_run (n : Nat) (sched : List (Nat × Bool)) (s : CacheState)
    (hs : CacheInv n s) : CacheInv n (cacheRun sched s) := by
  induction sched generalizing s with
  | nil => exact hs
  | cons e sched ih => exact ih _ (cacheInv_step n s e.1 e.2 hs)

/-- C7: under every interleaving of any number of concurrent tasks running
getClient for one previously-unseen host, at most one connection is ever
established; a client is memoized exactly when one establishment
succeeded, so failed dials cache nothing; and once every task has
finished with a client, exactly one connection was established. -/
theorem at_most_one_connection_established (n : Nat)
    (sched : List (Nat × Bool)) (hn : 1 ≤ n) :
    (cacheRun sched (cacheInit n)).est ≤ 1 ∧
    ((cacheRun sched (cacheInit n)).cached = true ↔
      (cacheRun sched (cacheInit n)).est = 1) ∧
    ((∀ pc ∈ (cacheRun sched (cacheInit n)).pcs, pc = TaskPC.doneOk) →
      (cacheRun sched (cacheInit n)).est = 1) := by
  obtain ⟨hlen, hce, hdone⟩ := cacheInv_run n sched (cacheInit n) (cacheInv_init n)
  refine ⟨?_, ?_, ?_⟩
  · rcases hce with ⟨_, he⟩ | ⟨_, he⟩ <;> omega
  · rcases hce with ⟨hc, he⟩ | ⟨hc, he⟩ <;> simp [hc, he]
  · intro hall
    have hne : (cacheRun sched (cacheInit n)).pcs ≠ [] := by
      intro hnil
      rw [hnil] at hlen
      simp at hlen
      omega
    obtain ⟨pc, hpc⟩ := List.exists_mem_of_ne_nil _ hne
    have := hdone (hall pc hpc ▸ hpc)
    rcases hce with ⟨hc, he⟩ | ⟨hc, he⟩
    · rw [this] at hc; cases hc
    · exact he

/-- C7 witness: two tasks, a schedule in which the first dials
successfully and the second then hits the cache; every task finishes and
exactly one connection was established. -/
theorem at_most_one_connection_established_witness :
    1 ≤ 2 ∧
    ((cacheRun [(0, true), (0, true), (0, true), (1, true)] (cacheInit 2)).est ≤ 1 ∧
     ((cacheRun [(0, true), (0, true), (0, true), (1, true)] (cacheInit 2)).cached = true ↔
       (cacheRun [(0, true), (0, true), (0, true), (1, true)] (cacheInit 2)).est = 1) ∧
     ((∀ pc ∈ (cacheRun [(0, true), (0, true), (0, true), (1, true)] (cacheInit 2)).pcs,
        pc = TaskPC.doneOk) →
       (cacheRun [(0, true), (0, true), (0, true), (1, true)] (cacheInit 2)).est = 1)) :=
  ⟨by decide,
   at_most_one_connection_established 2 [(0, true), (0, true), (0, true), (1, true)]
     (by decide)⟩

end ChainOS
